import Mathlib

/-!
Verification of the semantic retrieval store (`src/vector_db.py`,
class `VectorDatabase`) against its natural-language specification.

Shallow embedding conventions:
* float32 arithmetic is idealised as exact rational arithmetic (`ℚ`);
* the sentence-transformer model is an opaque parameter
  `encode : String → List ℚ` together with its reported dimension;
* the FAISS `IndexFlatL2` is embedded as the list of its stored vectors,
  with `faissSearch` modelling the library's documented behaviour:
  squared-L2 exhaustive search, `k` results per query, missing slots
  padded with label `-1` and distance `FLT_MAX`, and an error when
  `k <= 0` (FAISS asserts `k > 0`);
* Python list indexing (including negative indices) is modelled by
  `pyGet`, which fails exactly when Python raises `IndexError`;
* file I/O is abstracted: `save` produces the pair of artifact contents
  (the index file and the pickled document list) and `load` consumes such
  a pair.
-/

namespace VectorDB

/-- Metadata dictionaries are modelled as association lists of strings. -/
abbrev Meta := List (String × String)

/-- One record of `self.documents`: the dict
`{'text': text, 'metadata': meta, 'id': ...}` built in `add_documents`. -/
structure Doc where
  text : String
  metadata : Meta
  id : Nat
deriving DecidableEq, Repr

/-- One element of the list returned by `search`: a copy of the document
dict with the added key `'similarity_score'`. -/
structure SearchResult where
  text : String
  metadata : Meta
  id : Nat
  similarity_score : ℚ
deriving DecidableEq, Repr

/-- The result of `get_stats`. -/
structure Stats where
  total_documents : Nat
  embedding_dimension : Nat
  index_type : String
deriving DecidableEq, Repr

/-- The in-memory state of a `VectorDatabase` instance: the encode
function and dimension of the sentence-transformer model, the vectors
held by the FAISS index, `self.documents`, and `self.embeddings`. -/
structure VectorDatabase where
  model : String → List ℚ
  dimension : Nat
  index : List (List ℚ)
  documents : List Doc
  embeddings : List (List ℚ)

/-- `VectorDatabase.__init__`: fresh model, empty index, empty lists. -/
def init (encode : String → List ℚ) (dim : Nat) : VectorDatabase :=
  { model := encode, dimension := dim, index := [], documents := [], embeddings := [] }

/-- Squared Euclidean (L2) distance, the metric of `IndexFlatL2`. -/
def sqDist (u v : List ℚ) : ℚ :=
  (List.zipWith (fun a b => (a - b) ^ 2) u v).sum

/-- `FLT_MAX`, the distance FAISS reports for padded (label `-1`) result
slots of an L2 search: `(2 - 2⁻²³)·2¹²⁷`. -/
def fltMax : ℚ := 2 ^ 128 - 2 ^ 104

/-- Ranking order of FAISS search results: ascending distance, ties by
smaller row id (the contract assumed by the specification). -/
def rankLe (a b : Int × ℚ) : Prop :=
  a.2 < b.2 ∨ (a.2 = b.2 ∧ a.1 ≤ b.1)

instance : DecidableRel rankLe := fun a b => by
  unfold rankLe; infer_instance

/-- Row ids paired with their squared distance to the query, in storage
order. -/
def withIds (index : List (List ℚ)) (q : List ℚ) : List (Int × ℚ) :=
  index.enum.map fun p => ((p.1 : Int), sqDist q p.2)

/-- Model of `faiss.IndexFlatL2.search` for one query vector: errors when
`k <= 0`; otherwise returns `k` slots — the `min(k, ntotal)` stored rows
nearest to the query (ascending distance), then `(-1, FLT_MAX)` padding. -/
def faissSearch (index : List (List ℚ)) (q : List ℚ) (k : Int) :
    Except String (List (Int × ℚ)) :=
  if k ≤ 0 then .error "Error: 'k > 0' failed"
  else
    let ranked := List.insertionSort rankLe (withIds index q)
    let kn := min k.toNat index.length
    .ok (ranked.take kn ++ List.replicate (k.toNat - kn) (-1, fltMax))

/-- Python list indexing `docs[i]`: non-negative indices must be in
range; negative indices count from the end; out-of-range raises
`IndexError`. -/
def pyGet (docs : List Doc) (i : Int) : Except String Doc :=
  if 0 ≤ i then
    match docs.get? i.toNat with
    | some d => .ok d
    | none => .error "IndexError: list index out of range"
  else if (-i).toNat ≤ docs.length then
    match docs.get? (docs.length - (-i).toNat) with
    | some d => .ok d
    | none => .error "IndexError: list index out of range"
  else .error "IndexError: list index out of range"

/-- The similarity conversion of `search`: `1 / (1 + dist)`. -/
def score (dist : ℚ) : ℚ := 1 / (1 + dist)

/-- The result dict built for one hit: `doc.copy()` plus
`'similarity_score'`. -/
def mkRes (d : Doc) (dist : ℚ) : SearchResult :=
  { text := d.text, metadata := d.metadata, id := d.id,
    similarity_score := score dist }

/-- The result loop of `search`: for each `(idx, dist)` slot, if
`idx < len(self.documents)` look the document up (Python indexing, so
`-1` reaches the last document, or raises on an empty list) and append
it with its score; otherwise skip the slot. -/
def collectResults (docs : List Doc) : List (Int × ℚ) → Except String (List SearchResult)
  | [] => .ok []
  | p :: ps =>
    if p.1 < (docs.length : Int) then
      match pyGet docs p.1 with
      | .ok d => (collectResults docs ps).map fun rest => mkRes d p.2 :: rest
      | .error e => .error e
    else collectResults docs ps

/-- `VectorDatabase.search`: encode the query, search the FAISS index,
convert the hits. -/
def VectorDatabase.search (db : VectorDatabase) (query : String) (k : Int) :
    Except String (List SearchResult) :=
  match faissSearch db.index (db.model query) k with
  | .ok pairs => collectResults db.documents pairs
  | .error e => .error e

/-- The default metadata synthesised when the caller omits it:
`[{"source": f"doc_{i}"} for i in range(len(texts))]`. -/
def defaultMeta (n : Nat) : List Meta :=
  (List.range n).map fun i => [("source", "doc_" ++ toString i)]

/-- The document-append loop of `add_documents`: iterates over
`enumerate(zip(texts, metadata))` and appends
`{'text': …, 'metadata': …, 'id': len(self.documents) + i}` — note that
`len(self.documents)` is re-read after the earlier appends of the same
loop. -/
def appendDocs (docs : List Doc) (pairs : List (String × Meta)) : List Doc :=
  pairs.enum.foldl
    (fun acc q => acc ++ [{ text := q.2.1, metadata := q.2.2, id := acc.length + q.1 }])
    docs

/-- `VectorDatabase.add_documents`: synthesise metadata when omitted,
encode every text, add all embeddings to the FAISS index, then run the
document-append loop over `zip(texts, metadata)`. -/
def VectorDatabase.add_documents (db : VectorDatabase) (texts : List String)
    (metadata : Option (List Meta)) : VectorDatabase :=
  let md := match metadata with
    | none => defaultMeta texts.length
    | some m => m
  { db with
    index := db.index ++ texts.map db.model,
    documents := appendDocs db.documents (texts.zip md) }

/-- The pair of artifact contents written by `save`: the FAISS index file
and the pickled `self.documents`. -/
structure Artifacts where
  indexFile : List (List ℚ)
  pklFile : List Doc

/-- `VectorDatabase.save`: writes the index and the document list. -/
def VectorDatabase.save (db : VectorDatabase) : Artifacts :=
  { indexFile := db.index, pklFile := db.documents }

/-- `VectorDatabase.load`: replaces the index and the document list with
the artifacts' contents; no count or dimension validation is performed. -/
def VectorDatabase.load (db : VectorDatabase) (a : Artifacts) : VectorDatabase :=
  { db with index := a.indexFile, documents := a.pklFile }

/-- `VectorDatabase.get_stats`. -/
def VectorDatabase.get_stats (db : VectorDatabase) : Stats :=
  { total_documents := db.documents.length,
    embedding_dimension := db.dimension,
    index_type := "IndexFlatL2" }

/-- The public operations of the store, for reachability statements. -/
inductive Op where
  | add (texts : List String) (metadata : Option (List Meta))
  | search (query : String) (k : Int)
  | save
  | load (a : Artifacts)
  | stats

/-- State transition of one public operation (`search`, `save` and
`get_stats` do not mutate the state). -/
def applyOp (db : VectorDatabase) : Op → VectorDatabase
  | .add texts md => db.add_documents texts md
  | .search _ _ => db
  | .save => db
  | .load a => db.load a
  | .stats => db

/-- The critical alignment invariant:
`len(self.documents) == self.index.ntotal`. -/
def inv (db : VectorDatabase) : Prop :=
  db.documents.length = db.index.length

/-- A concrete one-dimensional encode function used for evaluations:
maps a string to the one-element vector holding its length. -/
def enc0 : String → List ℚ := fun s => [(s.length : ℚ)]

/-- A concrete store holding a single document, `"a"`. -/
def sampleDB : VectorDatabase := (init enc0 1).add_documents ["a"] none

/-- The result list `sampleDB.search "a" 2` evaluates to: the genuine hit
for the single stored document, then the padded duplicate of that (last)
document carrying the `FLT_MAX` pad distance. -/
def sampleRes : List SearchResult :=
  [mkRes { text := "a", metadata := [("source", "doc_0")], id := 0 }
    (sqDist (enc0 "a") (enc0 "a")),
   mkRes { text := "a", metadata := [("source", "doc_0")], id := 0 } fltMax]

/-- The inputs under which one public operation actually preserves the
alignment invariant: `add_documents` needs the metadata list, when
given, to be at least as long as the texts list, and `load` needs
artifacts whose record counts agree. -/
def opOk : Op → Prop
  | .add texts md => md = none ∨ ∃ l, md = some l ∧ texts.length ≤ l.length
  | .load a => a.indexFile.length = a.pklFile.length
  | _ => True

/-- The number of results carried by a non-error search outcome. -/
def resultCount : Except String (List SearchResult) → Nat
  | .ok l => l.length
  | .error _ => 0

/-- The ids attached to a non-error search outcome, in result order. -/
def resultIds : Except String (List SearchResult) → List Nat
  | .ok l => l.map SearchResult.id
  | .error _ => []

/-- The result at position `i` of a non-error search outcome. -/
def getRes (r : Except String (List SearchResult)) (i : Nat) : Option SearchResult :=
  match r with
  | .ok l => l.get? i
  | .error _ => none

/-! ## Length lemmas -/

theorem appendDocs_aux_length (l : List (Nat × (String × Meta))) :
    ∀ start : List Doc,
      (l.foldl (fun acc q =>
        acc ++ [{ text := q.2.1, metadata := q.2.2, id := acc.length + q.1 }]) start).length
        = start.length + l.length := by
  induction l with
  | nil => intro s; simp
  | cons a l ih =>
    intro s
    rw [List.foldl_cons, ih]
    simp [List.length_append]
    omega

theorem appendDocs_length (docs : List Doc) (pairs : List (String × Meta)) :
    (appendDocs docs pairs).length = docs.length + pairs.length := by
  unfold appendDocs
  rw [appendDocs_aux_length]
  simp

theorem defaultMeta_length (n : Nat) : (defaultMeta n).length = n := by
  simp [defaultMeta]

theorem add_documents_index_length (db : VectorDatabase) (texts : List String)
    (md : Option (List Meta)) :
    (db.add_documents texts md).index.length = db.index.length + texts.length := by
  simp [VectorDatabase.add_documents]

theorem add_documents_documents_length_some (db : VectorDatabase) (texts : List String)
    (mds : List Meta) :
    (db.add_documents texts (some mds)).documents.length =
      db.documents.length + min texts.length mds.length := by
  simp [VectorDatabase.add_documents, appendDocs_length]

theorem add_documents_documents_length_none (db : VectorDatabase) (texts : List String) :
    (db.add_documents texts none).documents.length =
      db.documents.length + texts.length := by
  simp [VectorDatabase.add_documents, appendDocs_length, defaultMeta_length]

/-! ## C1: the alignment invariant -/

/-- C1 (amended): `len(self.documents) == self.index.ntotal` is preserved
by every public operation provided `add_documents` is called with omitted
metadata or a metadata list at least as long as the texts list, and
`load` is given artifacts with equal record counts. (As stated — for
every input, including unequal lengths — the claim is false: see the
counterexample.) -/
theorem C1_invariant_preserved (db : VectorDatabase) (op : Op)
    (h : inv db) (hok : opOk op) : inv (applyOp db op) := by
  cases op with
  | add texts md =>
    cases md with
    | none =>
      unfold inv at *
      show (db.add_documents texts none).documents.length =
        (db.add_documents texts none).index.length
      rw [add_documents_index_length, add_documents_documents_length_none]
      omega
    | some l =>
      simp only [opOk] at hok
      rcases hok with h1 | ⟨l', hl', hle⟩
      · exact absurd h1 (by simp)
      · unfold inv at *
        obtain rfl : l = l' := by injection hl'
        show (db.add_documents texts (some l)).documents.length =
          (db.add_documents texts (some l)).index.length
        rw [add_documents_index_length, add_documents_documents_length_some]
        omega
  | search q k => exact h
  | save => exact h
  | load a =>
    simp only [opOk] at hok
    unfold inv at *
    show (db.load a).documents.length = (db.load a).index.length
    simp [VectorDatabase.load, hok]
  | stats => exact h

/-- C1 witness: the preservation theorem applied to a concrete store and
operation. -/
theorem C1_invariant_witness : inv (applyOp (init enc0 1) (Op.add ["a", "b"] none)) :=
  C1_invariant_preserved (init enc0 1) (Op.add ["a", "b"] none) rfl (Or.inl rfl)

/-- C1 counterexample: calling `add_documents` with two texts and one
metadata record adds two vectors to the index but — because
`zip(texts, metadata)` silently truncates — only one document record, so
the claimed equality fails after this public operation. -/
theorem C1_invariant_counterexample :
    ((init enc0 1).add_documents ["a", "b"] (some [[("source", "x")]])).index.length = 2 ∧
    ((init enc0 1).add_documents ["a", "b"] (some [[("source", "x")]])).documents.length = 1 ∧
    ((init enc0 1).add_documents ["a", "b"]
        (some [[("source", "x")]])).documents.length ≠
      ((init enc0 1).add_documents ["a", "b"] (some [[("source", "x")]])).index.length := by
  refine ⟨by decide, by decide, by decide⟩

/-! ## C2: id assignment -/

/-- C2: evaluation at the failing input. Starting from an empty store,
`add_documents(["a","b"])` assigns ids `0, 2` (not `0, 1`: the id
expression `len(self.documents) + i` re-reads the length after the `i`
earlier appends of the same loop, yielding `m + 2i`), and a subsequent
`add_documents(["c"])` assigns id `2` again — a duplicate. The claim of
dense, insertion-order ids is the evident intent; the code diverges. -/
theorem C2_id_assignment_eval :
    (((init enc0 1).add_documents ["a", "b"] none).add_documents
        ["c"] none).documents.map Doc.id = [0, 2, 2] := by
  decide

/-! ## C3: save / load round-trip -/

/-- C3: saving a store and loading the artifacts into a fresh store built
with the same embedding provider yields identical `get_stats` and
identical `search` results for every query and every `k`. -/
theorem C3_save_load_roundtrip (db : VectorDatabase) (q : String) (k : Int) :
    ((init db.model db.dimension).load db.save).get_stats = db.get_stats ∧
    ((init db.model db.dimension).load db.save).search q k = db.search q k := by
  cases db
  exact ⟨rfl, rfl⟩

/-! ## C4: k-bounding of search -/

/-- C4: evaluation at the failing input. On a store holding one document,
`search(q, 2)` returns `2` results instead of `min(2, 1) = 1`: FAISS pads
the missing slot with label `-1` and the guard `idx < len(self.documents)`
admits `-1`, which Python resolves to `documents[-1]`, duplicating the
last document. The guard is evidently meant to reject FAISS's missing
slots; the claim of exactly `min(k, N)` results is the intent. -/
theorem C4_k_bounding_eval :
    resultCount (sampleDB.search "a" 2) = 2 ∧
    min 2 sampleDB.documents.length = 1 ∧
    resultIds (sampleDB.search "a" 2) = [0, 0] := by
  refine ⟨by decide, by decide, by decide⟩

/-! ## C5: search on an empty store -/

set_option maxRecDepth 4000 in
/-- C5: evaluation at the failing input. On a store holding zero
documents, every slot FAISS returns carries label `-1` with distance
`FLT_MAX`. The guard `idx < len(self.documents)` evaluates `-1 < 0`,
which is true, so the code evaluates `self.documents[-1]` on the empty
list and raises `IndexError` — the search errors instead of returning
the empty sequence the claim (and the guard's evident intent) call
for. -/
theorem C5_empty_search_eval :
    (init enc0 1).search "x" 5 = .error "IndexError: list index out of range" := by
  rfl

/-! ## C6: load validation -/

set_option maxRecDepth 8000 in
/-- C6 counterexample: artifacts holding one 384-dimensional vector and
zero document records, loaded into a store whose provider reports
dimension 768, load without any error: the resulting state reports
dimension 768 in `get_stats`, holds a 384-dimensional vector, and has
disagreeing record counts. `load` completes instead of failing with a
corruption error. -/
theorem C6_load_counterexample :
    ((init enc0 768).load ⟨[List.replicate 384 0], []⟩).get_stats =
      ⟨0, 768, "IndexFlatL2"⟩ ∧
    ((init enc0 768).load ⟨[List.replicate 384 0], []⟩).index.map List.length = [384] ∧
    ((init enc0 768).load ⟨[List.replicate 384 0], []⟩).index.length ≠
      ((init enc0 768).load ⟨[List.replicate 384 0], []⟩).documents.length := by
  refine ⟨by decide, by decide, by decide⟩

/-- C6 (amended): `load` performs no validation at all — it
unconditionally replaces the index and the document list with the
artifacts' contents, keeping the current provider's model and reported
dimension, whatever the artifacts' dimension or record counts are. -/
theorem C6_load_unchecked (db : VectorDatabase) (a : Artifacts) :
    (db.load a).index = a.indexFile ∧ (db.load a).documents = a.pklFile ∧
    (db.load a).model = db.model ∧ (db.load a).dimension = db.dimension ∧
    (db.load a).get_stats.total_documents = a.pklFile.length :=
  ⟨rfl, rfl, rfl, rfl, rfl⟩

/-! ## C8: add_documents with unequal lengths -/

/-- C8 counterexample: calling `add_documents` with two texts and a
single metadata record raises no error and does change the store — the
index gains two vectors while the document list gains one record. -/
theorem C8_counterexample :
    ((init enc0 1).add_documents ["a", "b"] (some [[("source", "m")]])).index.length = 2 ∧
    ((init enc0 1).add_documents ["a", "b"]
        (some [[("source", "m")]])).documents.length = 1 := by
  refine ⟨by decide, by decide⟩

/-- C8 (amended): `add_documents` performs no length validation and never
fails on mismatched lengths: for any non-empty texts list it always adds
one vector per text to the index and appends
`min(len(texts), len(metadata))` document records (`zip` truncation),
leaving the store misaligned whenever the metadata list is strictly
shorter. -/
theorem C8_no_length_validation (db : VectorDatabase) (texts : List String)
    (mds : List Meta) (_hne : texts ≠ []) :
    (db.add_documents texts (some mds)).index.length =
      db.index.length + texts.length ∧
    (db.add_documents texts (some mds)).documents.length =
      db.documents.length + min texts.length mds.length :=
  ⟨add_documents_index_length db texts (some mds),
   add_documents_documents_length_some db texts mds⟩

/-- C8 witness: the amended theorem at the counterexample's input. -/
theorem C8_no_length_validation_witness :
    ((init enc0 1).add_documents ["a", "b"] (some [[("source", "m")]])).index.length =
      (init enc0 1).index.length + 2 ∧
    ((init enc0 1).add_documents ["a", "b"]
        (some [[("source", "m")]])).documents.length =
      (init enc0 1).documents.length + min 2 1 :=
  C8_no_length_validation (init enc0 1) ["a", "b"] [[("source", "m")]] (by decide)

/-! ## C9: non-positive k -/

/-- C9: for every store state and query, `search` with `k <= 0` fails:
the call is delegated to FAISS, whose `Index::search` rejects a
non-positive `k` (`FAISS_THROW_IF_NOT(k > 0)`), and the exception
propagates to the caller; no result list is returned. -/
theorem C9_nonpositive_k (db : VectorDatabase) (q : String) (k : Int)
    (hk : k ≤ 0) : db.search q k = .error "Error: 'k > 0' failed" := by
  simp only [VectorDatabase.search, faissSearch, if_pos hk]

/-- C9 witness: `search` with `k = 0` on a concrete store. -/
theorem C9_nonpositive_k_witness :
    (init enc0 1).search "x" 0 = .error "Error: 'k > 0' failed" :=
  C9_nonpositive_k (init enc0 1) "x" 0 (by decide)

/-! ## C10: the embeddings attribute -/

theorem applyOp_embeddings (db : VectorDatabase) (op : Op) :
    (applyOp db op).embeddings = db.embeddings := by
  cases op <;> rfl

theorem foldl_applyOp_embeddings (ops : List Op) :
    ∀ db : VectorDatabase, (ops.foldl applyOp db).embeddings = db.embeddings := by
  induction ops with
  | nil => intro db; rfl
  | cons op ops ih =>
    intro db
    rw [List.foldl_cons, ih, applyOp_embeddings]

/-- C10: in every state reachable from construction through any sequence
of public operations, `self.embeddings` is still the empty list it was
initialised to — no operation ever populates it — and `save` persists
only the index and the document list, not `self.embeddings`. -/
theorem C10_embeddings_never_populated (e : String → List ℚ) (d : Nat)
    (ops : List Op) :
    (ops.foldl applyOp (init e d)).embeddings = [] ∧
    (ops.foldl applyOp (init e d)).save =
      ⟨(ops.foldl applyOp (init e d)).index,
       (ops.foldl applyOp (init e d)).documents⟩ :=
  ⟨foldl_applyOp_embeddings ops (init e d), rfl⟩

/-! ## C7: the similarity-score formula -/

theorem mem_withIds {index : List (List ℚ)} {q : List ℚ} {p : Int × ℚ}
    (hp : p ∈ withIds index q) :
    ∃ i, ∃ hi : i < index.length, p = ((i : Int), sqDist q index[i]) := by
  unfold withIds at hp
  rcases List.mem_map.mp hp with ⟨a, ha, rfl⟩
  rcases List.getElem?_eq_some.mp (List.mem_enum_iff_getElem?.mp ha) with ⟨hlt, hval⟩
  exact ⟨a.1, hlt, by rw [hval]⟩

theorem withIds_length (index : List (List ℚ)) (q : List ℚ) :
    (withIds index q).length = index.length := by
  simp [withIds]

theorem collectResults_ok_pos (docs : List Doc) (pairs : List (Int × ℚ)) :
    (∀ p ∈ pairs, 0 ≤ p.1 ∧ p.1 < (docs.length : Int)) →
    ∃ l, collectResults docs pairs = .ok l ∧ l.length = pairs.length ∧
      ∀ (j : Nat) (p : Int × ℚ), pairs[j]? = some p →
        ∃ hp : p.1.toNat < docs.length, l[j]? = some (mkRes docs[p.1.toNat] p.2) := by
  induction pairs with
  | nil =>
    refine fun _ => ⟨[], rfl, rfl, fun j p hp => ?_⟩
    simp at hp
  | cons p ps ih =>
    intro hb
    obtain ⟨h1, h2⟩ := hb p (List.mem_cons_self p ps)
    obtain ⟨l, hl, hlen, hpos⟩ := ih fun r hr => hb r (List.mem_cons_of_mem p hr)
    have hn : p.1.toNat < docs.length := by omega
    have hget : docs.get? p.1.toNat = some docs[p.1.toNat] := by
      rw [List.get?_eq_getElem?, List.getElem?_eq_getElem hn]
    refine ⟨mkRes docs[p.1.toNat] p.2 :: l, ?_, by simp [hlen], ?_⟩
    · simp only [collectResults, if_pos h2, pyGet, if_pos h1, hget, hl, Except.map]
    · intro j r hr
      cases j with
      | zero =>
        rw [List.getElem?_cons_zero] at hr
        injection hr with hr
        subst hr
        exact ⟨hn, by rw [List.getElem?_cons_zero]⟩
      | succ j =>
        rw [List.getElem?_cons_succ] at hr
        obtain ⟨hp, hl2⟩ := hpos j r hr
        exact ⟨hp, by rw [List.getElem?_cons_succ]; exact hl2⟩

theorem pyGet_neg_one (docs : List Doc) (hne : docs ≠ []) :
    pyGet docs (-1) = .ok (docs.getLast hne) := by
  have hlen : 0 < docs.length := List.length_pos.mpr hne
  have hget : docs.get? (docs.length - (-(-1 : Int)).toNat) =
      some (docs.getLast hne) := by
    have h1 : (-(-1 : Int)).toNat = 1 := rfl
    rw [h1, List.get?_eq_getElem?, List.getElem?_eq_getElem (by omega),
      List.getLast_eq_getElem]
  unfold pyGet
  rw [if_neg (by decide),
    if_pos (show (-(-1 : Int)).toNat ≤ docs.length by omega), hget]

theorem collectResults_pad (docs : List Doc) (hne : docs ≠ []) (c : Nat) :
    collectResults docs (List.replicate c (-1, fltMax)) =
      .ok (List.replicate c (mkRes (docs.getLast hne) fltMax)) := by
  have hlen : 0 < docs.length := List.length_pos.mpr hne
  induction c with
  | zero => rfl
  | succ c ih =>
    rw [List.replicate_succ, List.replicate_succ]
    have hg : (((-1 : Int), fltMax)).1 < (docs.length : Int) := by
      show (-1 : Int) < (docs.length : Int)
      omega
    simp only [collectResults, if_pos hg, pyGet_neg_one docs hne, ih, Except.map]

theorem collectResults_pad_empty (c : Nat) (hc : c ≠ 0) :
    collectResults [] (List.replicate c ((-1 : Int), fltMax)) =
      .error "IndexError: list index out of range" := by
  cases c with
  | zero => exact absurd rfl hc
  | succ c =>
    rw [List.replicate_succ]
    rfl

theorem collectResults_append (docs : List Doc) (A B : List (Int × ℚ)) :
    ∀ la, collectResults docs A = .ok la →
      collectResults docs (A ++ B) =
        (collectResults docs B).map fun lb => la ++ lb := by
  induction A with
  | nil =>
    intro la h
    simp only [collectResults] at h
    injection h with h
    subst h
    cases hB : collectResults docs B <;> simp [hB, Except.map]
  | cons p ps ih =>
    intro la h
    rw [List.cons_append]
    by_cases hg : p.1 < (docs.length : Int)
    · simp only [collectResults, if_pos hg] at h ⊢
      cases hpg : pyGet docs p.1 with
      | error e =>
        simp only [hpg] at h
        exact Except.noConfusion h
      | ok d =>
        simp only [hpg] at h ⊢
        cases hps : collectResults docs ps with
        | error e =>
          rw [hps] at h
          simp only [Except.map] at h
          exact Except.noConfusion h
        | ok l2 =>
          rw [hps] at h
          simp only [Except.map] at h
          injection h with h
          subst h
          rw [ih l2 hps]
          cases hB : collectResults docs B <;> simp [hB, Except.map]
    · simp only [collectResults, if_neg hg] at h ⊢
      exact ih la h

/-- C7 (amended): under the alignment invariant, whenever `search`
returns a result list, each of its first `min(k, N)` entries is the
record of some stored row `i` carrying similarity score `1 / (1 + d)`
for `d` the squared Euclidean distance from the query vector to row
`i`; every later entry — the padded extras arising when `k > N` —
attaches the last stored document with score `1 / (1 + FLT_MAX)`. The
score function is `1` at distance `0`, `1/4` at distance `3`, strictly
decreasing, and lies in `(0, 1]` for every non-negative distance. (As
stated — score equal to `1 / (1 + d)` of the attached document's own
distance for every search result, including the padded ones — the claim
is false: see the counterexample.) -/
theorem C7_score_formula (db : VectorDatabase) (q : String) (k : Int)
    (hinv : db.documents.length = db.index.length)
    (res : List SearchResult) (hres : db.search q k = .ok res) :
    (∀ j : Nat, j < min k.toNat db.index.length →
      ∃ i, ∃ hi : i < db.index.length, ∃ hd : i < db.documents.length,
        res[j]? = some (mkRes db.documents[i] (sqDist (db.model q) db.index[i]))) ∧
    (∀ j : Nat, min k.toNat db.index.length ≤ j → j < res.length →
      ∃ hne : db.documents ≠ [],
        res[j]? = some (mkRes (db.documents.getLast hne) fltMax)) ∧
    score 0 = 1 ∧ score 3 = 1 / 4 ∧
    (∀ d : ℚ, 0 ≤ d → 0 < score d ∧ score d ≤ 1) ∧
    (∀ d e : ℚ, 0 ≤ d → d < e → score e < score d) := by
  have hs1 : score 0 = 1 := by norm_num [score]
  have hs3 : score 3 = 1 / 4 := by norm_num [score]
  have hsb : ∀ d : ℚ, 0 ≤ d → 0 < score d ∧ score d ≤ 1 := by
    intro d hd
    refine ⟨div_pos one_pos (by linarith), ?_⟩
    rw [score, div_le_one (by linarith)]
    linarith
  have hsm : ∀ d e : ℚ, 0 ≤ d → d < e → score e < score d :=
    fun d e hd hde => one_div_lt_one_div_of_lt (by linarith) (by linarith)
  by_cases hk0 : k ≤ 0
  · simp only [VectorDatabase.search, faissSearch, if_pos hk0] at hres
    exact Except.noConfusion hres
  · simp only [VectorDatabase.search, faissSearch, if_neg hk0] at hres
    set A := (List.insertionSort rankLe (withIds db.index (db.model q))).take
      (min k.toNat db.index.length) with hA
    have hAchar : ∀ p ∈ A, ∃ i, ∃ hi : i < db.index.length,
        p = ((i : Int), sqDist (db.model q) db.index[i]) := by
      intro p hp
      rw [hA] at hp
      exact mem_withIds ((List.perm_insertionSort rankLe
        (withIds db.index (db.model q))).subset (List.mem_of_mem_take hp))
    have hbA : ∀ p ∈ A, 0 ≤ p.1 ∧ p.1 < (db.documents.length : Int) := by
      intro p hp
      obtain ⟨i, hi, rfl⟩ := hAchar p hp
      exact ⟨by omega, by omega⟩
    have hAlen : A.length = min k.toNat db.index.length := by
      rw [hA, List.length_take, List.length_insertionSort, withIds_length]
      omega
    obtain ⟨la, hla, hlal, hpos⟩ := collectResults_ok_pos db.documents A hbA
    have hpart1 : ∀ j, j < min k.toNat db.index.length →
        ∃ i, ∃ hi : i < db.index.length, ∃ hd : i < db.documents.length,
          la[j]? = some (mkRes db.documents[i]
            (sqDist (db.model q) db.index[i])) := by
      intro j hj
      have hjA : j < A.length := by omega
      have hgetA : A[j]? = some A[j] := List.getElem?_eq_getElem hjA
      obtain ⟨hp, hlj⟩ := hpos j A[j] hgetA
      obtain ⟨i, hi, hpe⟩ := hAchar A[j] (List.getElem_mem hjA)
      have e1 : (A[j]).1.toNat = i := by
        rw [hpe]
        exact Int.toNat_natCast i
      have e2 : (A[j]).2 = sqDist (db.model q) db.index[i] := by rw [hpe]
      have e3 : db.documents[(A[j]).1.toNat] = db.documents[i] := by
        have h4 : db.documents[(A[j]).1.toNat]? = db.documents[i]? := by rw [e1]
        rw [List.getElem?_eq_getElem hp,
          List.getElem?_eq_getElem (show i < db.documents.length by omega)] at h4
        injection h4
      refine ⟨i, hi, by omega, ?_⟩
      rw [hlj, e3, e2]
    by_cases hkle : k.toNat ≤ db.index.length
    · have hc : k.toNat - min k.toNat db.index.length = 0 := by omega
      rw [hc, List.replicate_zero, List.append_nil, hla] at hres
      injection hres with hres
      subst hres
      refine ⟨hpart1, ?_, hs1, hs3, hsb, hsm⟩
      intro j hj1 hj2
      exact absurd hj2 (by omega)
    · have hcpos : k.toNat - min k.toNat db.index.length ≠ 0 := by omega
      rw [collectResults_append db.documents A _ la hla] at hres
      by_cases hne : db.documents = []
      · rw [hne, collectResults_pad_empty _ hcpos] at hres
        simp only [Except.map] at hres
        exact Except.noConfusion hres
      · rw [collectResults_pad db.documents hne _] at hres
        simp only [Except.map] at hres
        injection hres with hres
        subst hres
        refine ⟨?_, ?_, hs1, hs3, hsb, hsm⟩
        · intro j hj
          obtain ⟨i, hi, hd, hget⟩ := hpart1 j hj
          refine ⟨i, hi, hd, ?_⟩
          rw [List.getElem?_append, if_pos (show j < la.length by omega)]
          exact hget
        · intro j hj1 hj2
          refine ⟨hne, ?_⟩
          have hlen2 : j < la.length + (k.toNat - min k.toNat db.index.length) := by
            have h5 := hj2
            rw [List.length_append, List.length_replicate] at h5
            exact h5
          rw [List.getElem?_append_right (by omega), List.getElem?_replicate,
            if_pos (by omega)]

set_option maxRecDepth 4000 in
set_option linter.unusedVariables false in
/-- C7 witness: the amended theorem applied to a store holding one
document, a query at squared distance `0` from it, and `k = 2 > N = 1`,
so both the genuine-prefix part (at `j = 0`) and the padded part
(at `j = 1`) are exercised. -/
theorem C7_score_formula_witness :
    (∀ j : Nat, j < min (2 : Int).toNat sampleDB.index.length →
      ∃ i, ∃ hi : i < sampleDB.index.length, ∃ hd : i < sampleDB.documents.length,
        sampleRes[j]? = some (mkRes sampleDB.documents[i]
          (sqDist (sampleDB.model "a") sampleDB.index[i]))) ∧
    (∀ j : Nat, min (2 : Int).toNat sampleDB.index.length ≤ j →
        j < sampleRes.length →
      ∃ hne : sampleDB.documents ≠ [],
        sampleRes[j]? = some (mkRes (sampleDB.documents.getLast hne) fltMax)) ∧
    score 0 = 1 ∧ score 3 = 1 / 4 ∧
    (∀ d : ℚ, 0 ≤ d → 0 < score d ∧ score d ≤ 1) ∧
    (∀ d e : ℚ, 0 ≤ d → d < e → score e < score d) :=
  C7_score_formula sampleDB "a" 2 (by decide) sampleRes (by rfl)

set_option maxRecDepth 4000 in
/-- C7 counterexample: on a store holding one document whose vector
equals the query embedding (squared distance `0`), `search(q, 2)` has a
second, padded result attaching that same document with similarity score
`1 / (1 + FLT_MAX)` — not `1 / (1 + 0) = 1`, the value the claim
prescribes for that document's distance. -/
theorem C7_score_counterexample :
    getRes (sampleDB.search "a" 2) 1 =
      some (mkRes { text := "a", metadata := [("source", "doc_0")], id := 0 } fltMax) ∧
    sampleDB.index = [enc0 "a"] ∧
    sqDist (enc0 "a") (enc0 "a") = 0 ∧
    score fltMax ≠ score 0 ∧
    score 0 = 1 := by
  refine ⟨by rfl, by rfl, ?_, ?_, ?_⟩
  · simp [sqDist, enc0]
  · rw [score, score, fltMax]
    norm_num
  · rw [score]
    norm_num

end VectorDB
